import Mathlib

/-!
# sszgen: the generator driver `Config.process` (main.go)

A shallow embedding of `main.go`.  The driver calls collaborators that
live outside `main.go` (`packages.Load`, `packages.PrintErrors`,
`parsePackage`, `newGenContext`, `generate`, `genContext.header` and
`format.Source`).  They are taken as parameters (`Env`), each with the shape
of its Go signature: a Go function returning `(value, error)` is a function
into a pair whose second component is `none` for a `nil` error.  Every call
the driver makes is recorded, in order, in a trace, so that statements about
which collaborator is called, with what and when, can be made.
-/

namespace Sszgen

/-- Go's `[]byte`; the `nil` slice is the empty list. -/
abbrev Bytes := List UInt8

/-- The conversion `[]byte("...")` of a Go string literal (UTF-8). -/
def bytesOf (s : String) : Bytes := s.toUTF8.data.toList

/-- Go's `bytes.Join(s, sep)`: empty for no element, otherwise the first
element followed, for each later element, by `sep` and that element. -/
def bytesJoin (s : List Bytes) (sep : Bytes) : Bytes :=
  match s with
  | [] => []
  | first :: rest => rest.foldl (fun b v => b ++ sep ++ v) first

/-- The `packages.LoadMode` bits that `process` asks for. -/
inductive LoadMode where
  | NeedName
  | NeedTypes
  | NeedImports
  | NeedDeps
  deriving DecidableEq, Repr

/-- The fields of `packages.Config` that `process` sets; `Mode` is the list of
bits joined with `|`. -/
structure PackagesConfig where
  Mode : List LoadMode
  Dir : String
  BuildFlags : List String
  deriving DecidableEq, Repr

/-- The fields of `packages.Package` that `process` reads.  `T` stands for
`*types.Package`. -/
structure Package (T : Type) where
  PkgPath : String
  Errors : List String
  Types : T
  deriving DecidableEq, Repr

/-- A Go `error` as `process` can return it: either the error value of a
collaborator handed on as it is, or a value built by `fmt.Errorf`. -/
inductive GoError (ε : Type) where
  | collab (e : ε)
  | errorf (msg : String)
  deriving DecidableEq, Repr

/-- The command-line configuration (`type Config struct`).  The Go field
`Type` is written `Type_`, `Type` being reserved. -/
structure Config where
  Dir : String
  Type_ : String
  deriving DecidableEq, Repr

/-- The collaborators of `process`.  `T` is `*types.Package`, `Ty` the type
descriptor that `parsePackage` returns, `Ctx` the state of the generation
context and `ε` the error values of the collaborators.  `generate` may change
the context it is given, so it returns the context after the call as well.
The second argument of `parsePackage` is the optional type name; `none` is
Go's `nil`. -/
structure Env (T Ty Ctx ε : Type) where
  load : PackagesConfig → List (Package T) × Option ε
  parsePackage : T → Option String → List Ty × Option ε
  newGenContext : T → Ctx
  generate : Ctx → Ty → Ctx × Bytes × Option ε
  header : Ctx → Bytes
  formatSource : Bytes → Bytes × Option ε

/-- One call made by `process`, with its arguments. -/
inductive Event (T Ty Ctx : Type) where
  | load (pcfg : PackagesConfig)
  | printErrors (ps : List (Package T))
  | parsePackage (pkg : T) (name : Option String)
  | newGenContext (pkg : T)
  | generate (ctx : Ctx) (typ : Ty)
  | header (ctx : Ctx)
  | formatSource (src : Bytes)
  deriving DecidableEq, Repr

/-- What a run of `process` yields: the two Go results and the calls made. -/
structure Run (T Ty Ctx ε : Type) where
  code : Bytes
  err : Option (GoError ε)
  trace : List (Event T Ty Ctx)
  deriving DecidableEq, Repr

/-- State of the `for _, typ := range types` loop when it is left. -/
structure LoopState (T Ty Ctx ε : Type) where
  ctx : Ctx
  chunks : List Bytes
  err : Option ε
  trace : List (Event T Ty Ctx)

/-- The loop `for _, typ := range types { ret, err := generate(ctx, typ); ... }`
of `process`: it leaves at the first error, and otherwise appends `ret` to
`chunks`. -/
def generateLoop {T Ty Ctx ε : Type} (env : Env T Ty Ctx ε) :
    List Ty → Ctx → List Bytes → List (Event T Ty Ctx) → LoopState T Ty Ctx ε
  | [], ctx, chunks, tr => ⟨ctx, chunks, none, tr⟩
  | typ :: rest, ctx, chunks, tr =>
    match env.generate ctx typ with
    | (ctx', _, some e) => ⟨ctx', chunks, some e, tr ++ [Event.generate ctx typ]⟩
    | (ctx', ret, none) =>
      generateLoop env rest ctx' (chunks ++ [ret]) (tr ++ [Event.generate ctx typ])

/-- The build comments that `process` writes into `header` with three
`fmt.Fprint` calls. -/
def buildComments : Bytes :=
  bytesOf "// Code generated by sszgen. DO NOT EDIT.\n\n" ++
  bytesOf "//go:build !nosszgen\n" ++
  bytesOf "// +build !nosszgen\n\n"

/-- The `packages.Config` that `process` builds from `cfg`. -/
def loadConfig (cfg : Config) : PackagesConfig :=
  { Mode := [LoadMode.NeedName, LoadMode.NeedTypes, LoadMode.NeedImports, LoadMode.NeedDeps]
    Dir := cfg.Dir
    BuildFlags := ["-tags", "nosszgen"] }

/-- The method `func (cfg *Config) process() ([]byte, error)`. -/
def process {T Ty Ctx ε : Type} (env : Env T Ty Ctx ε) (cfg : Config) : Run T Ty Ctx ε :=
  let pcfg := loadConfig cfg
  let tr : List (Event T Ty Ctx) := [Event.load pcfg]
  match env.load pcfg with
  | (_, some e) => ⟨[], some (GoError.collab e), tr⟩
  | (ps, none) =>
    match ps with
    | [] => ⟨[], some (GoError.errorf ("no Go package found in " ++ cfg.Dir)), tr⟩
    | _ :: _ :: _ =>
      ⟨[], some (GoError.errorf "at most one package can be processed at the same time"), tr⟩
    | [pkg] =>
      let tr := tr ++ [Event.printErrors ps]
      if pkg.Errors.length > 0 then
        ⟨[], some (GoError.errorf ("package " ++ pkg.PkgPath ++ " has errors")), tr⟩
      else
        let tr := tr ++ [Event.parsePackage pkg.Types none]
        match env.parsePackage pkg.Types none with
        | (_, some e) => ⟨[], some (GoError.collab e), tr⟩
        | (types, none) =>
          let tr := tr ++ [Event.newGenContext pkg.Types]
          let ctx := env.newGenContext pkg.Types
          let st := generateLoop env types ctx [] tr
          match st.err with
          | some e => ⟨[], some (GoError.collab e), st.trace⟩
          | none =>
            let code := bytesJoin st.chunks (bytesOf "\n\n")
            let tr := st.trace ++ [Event.header st.ctx]
            let code := env.header st.ctx ++ code
            let tr := tr ++ [Event.formatSource code]
            let code := (env.formatSource code).1
            ⟨buildComments ++ code, none, tr⟩

/-- Big-step view of the emission loop when every call succeeds: starting in
context `ctx`, `generate` succeeds on each type of the list in turn, yields
the chunks listed, and leaves the context in the last state. -/
inductive GenRun {T Ty Ctx ε : Type} (env : Env T Ty Ctx ε) :
    Ctx → List Ty → List Bytes → Ctx → Prop where
  | done (ctx : Ctx) : GenRun env ctx [] [] ctx
  | step {ctx ctx' ctx'' : Ctx} {typ : Ty} {rest : List Ty} {ret : Bytes} {cs : List Bytes}
      (hgen : env.generate ctx typ = (ctx', ret, none))
      (hrest : GenRun env ctx' rest cs ctx'') :
      GenRun env ctx (typ :: rest) (ret :: cs) ctx''

/-- The `generate` calls of a loop over `types` that starts in `ctx`, each with
the context as the previous call left it. -/
def genEvents {T Ty Ctx ε : Type} (env : Env T Ty Ctx ε) : Ctx → List Ty → List (Event T Ty Ctx)
  | _, [] => []
  | ctx, typ :: rest => Event.generate ctx typ :: genEvents env (env.generate ctx typ).1 rest

/-- Is the event a call of `parsePackage`? -/
def Event.isParsePackage {T Ty Ctx : Type} : Event T Ty Ctx → Bool
  | Event.parsePackage _ _ => true
  | _ => false

/-- Is the event a call of `newGenContext`? -/
def Event.isNewGenContext {T Ty Ctx : Type} : Event T Ty Ctx → Bool
  | Event.newGenContext _ => true
  | _ => false

/-- Is the event a call of `generate`? -/
def Event.isGenerate {T Ty Ctx : Type} : Event T Ty Ctx → Bool
  | Event.generate _ _ => true
  | _ => false

/-- Is the event a call of `header`? -/
def Event.isHeader {T Ty Ctx : Type} : Event T Ty Ctx → Bool
  | Event.header _ => true
  | _ => false

/-- Two sets of collaborators answer the call `ev` alike. -/
def Agree {T Ty Ctx ε : Type} (env₁ env₂ : Env T Ty Ctx ε) : Event T Ty Ctx → Prop
  | Event.load pcfg => env₁.load pcfg = env₂.load pcfg
  | Event.printErrors _ => True
  | Event.parsePackage pkg name => env₁.parsePackage pkg name = env₂.parsePackage pkg name
  | Event.newGenContext pkg => env₁.newGenContext pkg = env₂.newGenContext pkg
  | Event.generate ctx typ => env₁.generate ctx typ = env₂.generate ctx typ
  | Event.header ctx => env₁.header ctx = env₂.header ctx
  | Event.formatSource src => env₁.formatSource src = env₂.formatSource src

/-- Is the event a call of `format.Source`? -/
def Event.isFormatSource {T Ty Ctx : Type} : Event T Ty Ctx → Bool
  | Event.formatSource _ => true
  | _ => false

/-- The context at the end of a loop over `types` that starts in `ctx`. -/
def ctxAfter {T Ty Ctx ε : Type} (env : Env T Ty Ctx ε) (ctx : Ctx) (types : List Ty) : Ctx :=
  types.foldl (fun c t => (env.generate c t).1) ctx

/-- What `main` does after `flag.Parse()`: `fatal` prints the error and exits
with status 1, otherwise the code goes to standard output or to a file. -/
inductive MainEffect (ε : Type) where
  | fatal (err : GoError ε)
  | stdoutWrite (code : Bytes)
  | writeFile (name : String) (code : Bytes) (perm : Nat)
  deriving DecidableEq, Repr

/-- The function `main`, from the parsed flags `-dir`, `-out` and `-type` on.
`writeFile` is `os.WriteFile`; the permission `0600` is 384. -/
def main {T Ty Ctx ε : Type} (env : Env T Ty Ctx ε) (writeFile : String → Bytes → Nat → Option ε)
    (pkgdir output typename : String) : List (MainEffect ε) :=
  let cfg : Config := { Dir := pkgdir, Type_ := typename }
  let r := process env cfg
  match r.err with
  | some err => [MainEffect.fatal err]
  | none =>
    if output = "-" then [MainEffect.stdoutWrite r.code]
    else
      match writeFile output r.code 384 with
      | some e => [MainEffect.writeFile output r.code 384, MainEffect.fatal (GoError.collab e)]
      | none => [MainEffect.writeFile output r.code 384]

/-! ## A concrete set of collaborators

Used to run `process` on explicit inputs.  A package is the list of the names
of its eligible types, a type descriptor is a name, and the generation context
is the list of names registered so far. -/

/-- Modelled from the spec: the Type Selector of section 4.1 (`parsePackage`,
which is not part of `main.go`).  With a name it returns exactly that type or
fails with a not-found error; without one it returns every eligible type in
declaration order. -/
def selectTypes (decls : List String) (name : Option String) : List String × Option String :=
  match name with
  | none => (decls, none)
  | some n => if n ∈ decls then ([n], none) else ([], some ("type " ++ n ++ " not found"))

/-- A stand-in for `generate`: it registers the type in the context and emits
one line, and fails on the type named `Bad`. -/
def demoGenerate (ctx : List String) (typ : String) : List String × Bytes × Option String :=
  if typ = "Bad" then (ctx, [], some "unsupported type Bad")
  else (ctx ++ [typ], bytesOf ("func (obj *" ++ typ ++ ") SizeSSZ() int"), none)

/-- A stand-in for `genContext.header`: the package clause and the names
registered in the context. -/
def demoHeader (ctx : List String) : Bytes :=
  bytesOf ("package demo // " ++ String.intercalate "," ctx ++ "\n")

/-- A formatter that succeeds and returns its input. -/
def formatKeep (src : Bytes) : Bytes × Option String := (src, none)

/-- A formatter that fails the way `go/format.Source` does: it returns the
`nil` slice together with its error. -/
def formatFail (_ : Bytes) : Bytes × Option String := ([], some "expected declaration")

/-- The concrete collaborators, for a given answer of the loader and a given
formatter. -/
def demoEnv (loaded : List (Package (List String)) × Option String)
    (fmt : Bytes → Bytes × Option String) : Env (List String) String (List String) String where
  load := fun _ => loaded
  parsePackage := selectTypes
  newGenContext := fun _ => []
  generate := demoGenerate
  header := demoHeader
  formatSource := fmt

/-- A package that declares the eligible types listed. -/
def demoPkg (types : List String) : Package (List String) :=
  { PkgPath := "example.com/demo", Errors := [], Types := types }

/-- An `os.WriteFile` that always succeeds. -/
def demoWriteFile (_ : String) (_ : Bytes) (_ : Nat) : Option String := none

/-- A formatter that returns its input, and fails on the empty text only. -/
def formatNonEmpty (src : Bytes) : Bytes × Option String :=
  if src = [] then ([], some "empty source") else (src, none)

instance Agree.decidable {T Ty Ctx ε : Type} [DecidableEq T] [DecidableEq Ty] [DecidableEq Ctx]
    [DecidableEq ε] (env₁ env₂ : Env T Ty Ctx ε) : DecidablePred (Agree env₁ env₂) := fun ev =>
  match ev with
  | Event.load pcfg => inferInstanceAs (Decidable (env₁.load pcfg = env₂.load pcfg))
  | Event.printErrors _ => isTrue trivial
  | Event.parsePackage pkg name =>
    inferInstanceAs (Decidable (env₁.parsePackage pkg name = env₂.parsePackage pkg name))
  | Event.newGenContext pkg =>
    inferInstanceAs (Decidable (env₁.newGenContext pkg = env₂.newGenContext pkg))
  | Event.generate ctx typ =>
    inferInstanceAs (Decidable (env₁.generate ctx typ = env₂.generate ctx typ))
  | Event.header ctx => inferInstanceAs (Decidable (env₁.header ctx = env₂.header ctx))
  | Event.formatSource src =>
    inferInstanceAs (Decidable (env₁.formatSource src = env₂.formatSource src))

/-! ## Theorems -/

theorem bytesJoin_foldl (sep : Bytes) (rest : List Bytes) (acc : Bytes) :
    rest.foldl (fun b v => b ++ sep ++ v) acc = acc ++ (rest.map (fun v => sep ++ v)).flatten := by
  induction rest generalizing acc with
  | nil => simp
  | cons v vs ih =>
    rw [List.foldl_cons, ih]
    simp [List.append_assoc]

/-- Go's `bytes.Join` is the intercalation of the separator. -/
theorem bytesJoin_eq_intercalate (s : List Bytes) (sep : Bytes) :
    bytesJoin s sep = List.intercalate sep s := by
  cases s with
  | nil => simp [bytesJoin, List.intercalate]
  | cons first rest =>
    simp only [bytesJoin, bytesJoin_foldl]
    induction rest generalizing first with
    | nil => simp [List.intercalate]
    | cons v vs ih =>
      have h := ih v
      simp only [List.intercalate, List.intersperse, List.flatten, List.map] at h ⊢
      simp [← h, List.append_assoc]

/-- The accumulators of the loop only grow: the loop run from any chunks and
trace is the loop run from empty ones, appended. -/
theorem generateLoop_acc {T Ty Ctx ε : Type} (env : Env T Ty Ctx ε) (types : List Ty) (ctx : Ctx)
    (chunks : List Bytes) (tr : List (Event T Ty Ctx)) :
    generateLoop env types ctx chunks tr =
      ⟨(generateLoop env types ctx [] []).ctx, chunks ++ (generateLoop env types ctx [] []).chunks,
        (generateLoop env types ctx [] []).err, tr ++ (generateLoop env types ctx [] []).trace⟩ := by
  induction types generalizing ctx chunks tr with
  | nil => simp [generateLoop]
  | cons typ rest ih =>
    simp only [generateLoop]
    rcases hg : env.generate ctx typ with ⟨ctx', ret, _ | e⟩
    · simp only []
      rw [ih ctx' (chunks ++ [ret]) (tr ++ [Event.generate ctx typ]),
        ih ctx' ([] ++ [ret]) ([] ++ [Event.generate ctx typ])]
      simp [List.append_assoc]
    · simp

section Loop

variable {T Ty Ctx ε : Type} (env : Env T Ty Ctx ε)

theorem genEvents_append (ctx ctx' : Ctx) (l₁ l₂ : List Ty) (cs : List Bytes)
    (h : GenRun env ctx l₁ cs ctx') :
    genEvents env ctx (l₁ ++ l₂) = genEvents env ctx l₁ ++ genEvents env ctx' l₂ := by
  induction h with
  | done ctx => simp [genEvents]
  | step hgen _ ih => simp [genEvents, hgen, ih]

theorem genEvents_length (ctx : Ctx) (types : List Ty) :
    (genEvents env ctx types).length = types.length := by
  induction types generalizing ctx with
  | nil => simp [genEvents]
  | cons typ rest ih => simp [genEvents, ih]

theorem genEvents_isGenerate (ctx : Ctx) (types : List Ty) :
    ∀ ev ∈ genEvents env ctx types, ev.isGenerate = true := by
  induction types generalizing ctx with
  | nil => simp [genEvents]
  | cons typ rest ih =>
    intro ev hev
    simp only [genEvents, List.mem_cons] at hev
    rcases hev with rfl | hev
    · rfl
    · exact ih _ ev hev

theorem GenRun.length_eq {ctx ctx' : Ctx} {types : List Ty} {cs : List Bytes}
    (h : GenRun env ctx types cs ctx') : cs.length = types.length := by
  induction h with
  | done ctx => rfl
  | step _ _ ih => simp [ih]

/-- When every `generate` call succeeds the loop is left without an error,
holding the chunks in order and the last context. -/
theorem generateLoop_ok {ctx ctx' : Ctx} {types : List Ty} {cs : List Bytes}
    (h : GenRun env ctx types cs ctx') :
    generateLoop env types ctx [] [] = ⟨ctx', cs, none, genEvents env ctx types⟩ := by
  induction h with
  | done ctx => simp [generateLoop, genEvents]
  | step hgen _ ih =>
    simp only [generateLoop, hgen]
    rw [generateLoop_acc, ih]
    simp [genEvents, hgen]

/-- The loop is left at the first failing `generate` call. -/
theorem generateLoop_fail {ctx ctx' ctx'' : Ctx} {front rest : List Ty} {t : Ty}
    {cs : List Bytes} {r : Bytes} {e : ε}
    (h : GenRun env ctx front cs ctx') (hg : env.generate ctx' t = (ctx'', r, some e)) :
    generateLoop env (front ++ t :: rest) ctx [] [] =
      ⟨ctx'', cs, some e, genEvents env ctx front ++ [Event.generate ctx' t]⟩ := by
  induction h with
  | done ctx => simp [generateLoop, genEvents, hg]
  | step hgen _ ih =>
    have ih' := ih hg
    rw [List.cons_append]
    simp only [generateLoop, hgen]
    rw [generateLoop_acc, ih']
    simp [genEvents, hgen]

/-- Every loop either succeeds on all types or has a first failing type. -/
theorem generateLoop_cases (ctx : Ctx) (types : List Ty) :
    (∃ cs ctx', GenRun env ctx types cs ctx') ∨
    (∃ front t rest cs ctx' ctx'' r e, types = front ++ t :: rest ∧
      GenRun env ctx front cs ctx' ∧ env.generate ctx' t = (ctx'', r, some e)) := by
  induction types generalizing ctx with
  | nil => exact Or.inl ⟨[], ctx, GenRun.done ctx⟩
  | cons typ rest ih =>
    rcases hg : env.generate ctx typ with ⟨ctx₁, ret, _ | e⟩
    · rcases ih ctx₁ with ⟨cs, ctx', h⟩ | ⟨front, t, rest', cs, ctx', ctx'', r, e, rfl, h, hf⟩
      · exact Or.inl ⟨ret :: cs, ctx', GenRun.step hg h⟩
      · exact Or.inr ⟨typ :: front, t, rest', ret :: cs, ctx', ctx'', r, e, rfl,
          GenRun.step hg h, hf⟩
    · exact Or.inr ⟨[], typ, rest, [], ctx, ctx₁, ret, e, rfl, GenRun.done ctx, hg⟩

end Loop

section Process

variable {T Ty Ctx ε : Type} (env : Env T Ty Ctx ε) (cfg : Config)

theorem process_load_err {ps : List (Package T)} {e : ε}
    (h : env.load (loadConfig cfg) = (ps, some e)) :
    process env cfg = ⟨[], some (GoError.collab e), [Event.load (loadConfig cfg)]⟩ := by
  simp [process, h]

theorem process_no_package (h : env.load (loadConfig cfg) = ([], none)) :
    process env cfg = ⟨[], some (GoError.errorf ("no Go package found in " ++ cfg.Dir)),
      [Event.load (loadConfig cfg)]⟩ := by
  simp [process, h]

theorem process_many_packages {p q : Package T} {ps : List (Package T)}
    (h : env.load (loadConfig cfg) = (p :: q :: ps, none)) :
    process env cfg =
      ⟨[], some (GoError.errorf "at most one package can be processed at the same time"),
        [Event.load (loadConfig cfg)]⟩ := by
  simp [process, h]

theorem process_package_errors {pkg : Package T}
    (h : env.load (loadConfig cfg) = ([pkg], none)) (herr : pkg.Errors ≠ []) :
    process env cfg = ⟨[], some (GoError.errorf ("package " ++ pkg.PkgPath ++ " has errors")),
      [Event.load (loadConfig cfg), Event.printErrors [pkg]]⟩ := by
  have : pkg.Errors.length > 0 := List.length_pos.mpr herr
  simp [process, h, this]

theorem process_parse_err {pkg : Package T} {types : List Ty} {e : ε}
    (h : env.load (loadConfig cfg) = ([pkg], none)) (herr : pkg.Errors = [])
    (hp : env.parsePackage pkg.Types none = (types, some e)) :
    process env cfg = ⟨[], some (GoError.collab e),
      [Event.load (loadConfig cfg), Event.printErrors [pkg],
        Event.parsePackage pkg.Types none]⟩ := by
  simp [process, h, herr, hp]

theorem process_generate_err {pkg : Package T} {front rest : List Ty} {t : Ty}
    {cs : List Bytes} {ctx' ctx'' : Ctx} {r : Bytes} {e : ε}
    (h : env.load (loadConfig cfg) = ([pkg], none)) (herr : pkg.Errors = [])
    (hp : env.parsePackage pkg.Types none = (front ++ t :: rest, none))
    (hrun : GenRun env (env.newGenContext pkg.Types) front cs ctx')
    (hg : env.generate ctx' t = (ctx'', r, some e)) :
    process env cfg = ⟨[], some (GoError.collab e),
      [Event.load (loadConfig cfg), Event.printErrors [pkg],
        Event.parsePackage pkg.Types none, Event.newGenContext pkg.Types] ++
      genEvents env (env.newGenContext pkg.Types) front ++ [Event.generate ctx' t]⟩ := by
  simp only [process, h, herr, hp]
  rw [generateLoop_acc, generateLoop_fail env hrun hg]
  simp

theorem process_success {pkg : Package T} {types : List Ty} {cs : List Bytes} {ctx' : Ctx}
    (h : env.load (loadConfig cfg) = ([pkg], none)) (herr : pkg.Errors = [])
    (hp : env.parsePackage pkg.Types none = (types, none))
    (hrun : GenRun env (env.newGenContext pkg.Types) types cs ctx') :
    process env cfg =
      ⟨buildComments ++ (env.formatSource (env.header ctx' ++ bytesJoin cs (bytesOf "\n\n"))).1,
        none,
        [Event.load (loadConfig cfg), Event.printErrors [pkg],
          Event.parsePackage pkg.Types none, Event.newGenContext pkg.Types] ++
        genEvents env (env.newGenContext pkg.Types) types ++
        [Event.header ctx',
          Event.formatSource (env.header ctx' ++ bytesJoin cs (bytesOf "\n\n"))]⟩ := by
  simp only [process, h, herr, hp]
  rw [generateLoop_acc, generateLoop_ok env hrun]
  simp

/-- Every run ends in one of seven ways. -/
theorem process_cases :
    (∃ ps e, env.load (loadConfig cfg) = (ps, some e)) ∨
    env.load (loadConfig cfg) = ([], none) ∨
    (∃ p q ps, env.load (loadConfig cfg) = (p :: q :: ps, none)) ∨
    (∃ pkg, env.load (loadConfig cfg) = ([pkg], none) ∧ pkg.Errors ≠ []) ∨
    (∃ pkg types e, env.load (loadConfig cfg) = ([pkg], none) ∧ pkg.Errors = [] ∧
      env.parsePackage pkg.Types none = (types, some e)) ∨
    (∃ pkg front t rest cs ctx' ctx'' r e, env.load (loadConfig cfg) = ([pkg], none) ∧
      pkg.Errors = [] ∧ env.parsePackage pkg.Types none = (front ++ t :: rest, none) ∧
      GenRun env (env.newGenContext pkg.Types) front cs ctx' ∧
      env.generate ctx' t = (ctx'', r, some e)) ∨
    (∃ pkg types cs ctx', env.load (loadConfig cfg) = ([pkg], none) ∧ pkg.Errors = [] ∧
      env.parsePackage pkg.Types none = (types, none) ∧
      GenRun env (env.newGenContext pkg.Types) types cs ctx') := by
  rcases hl : env.load (loadConfig cfg) with ⟨ps, _ | e⟩
  swap
  · exact Or.inl ⟨ps, e, rfl⟩
  rcases ps with _ | ⟨pkg, _ | ⟨q, ps⟩⟩
  · exact Or.inr (Or.inl rfl)
  swap
  · exact Or.inr (Or.inr (Or.inl ⟨pkg, q, ps, rfl⟩))
  by_cases herr : pkg.Errors = []
  swap
  · exact Or.inr (Or.inr (Or.inr (Or.inl ⟨pkg, rfl, herr⟩)))
  rcases hp : env.parsePackage pkg.Types none with ⟨types, _ | e⟩
  swap
  · exact Or.inr (Or.inr (Or.inr (Or.inr (Or.inl ⟨pkg, types, e, rfl, herr, hp⟩))))
  rcases generateLoop_cases env (env.newGenContext pkg.Types) types with
    ⟨cs, ctx', h⟩ | ⟨front, t, rest, cs, ctx', ctx'', r, e, rfl, h, hf⟩
  · exact Or.inr (Or.inr (Or.inr (Or.inr (Or.inr (Or.inr ⟨pkg, types, cs, ctx', rfl, herr, hp, h⟩)))))
  · exact Or.inr (Or.inr (Or.inr (Or.inr (Or.inr (Or.inl
      ⟨pkg, front, t, rest, cs, ctx', ctx'', r, e, rfl, herr, hp, h, hf⟩)))))

end Process

section Claims

variable {T Ty Ctx ε : Type} (env : Env T Ty Ctx ε) (cfg : Config)

theorem getLast?_append_two {α : Type} (l : List α) (a b : α) :
    (l ++ [a, b]).getLast? = some b := by
  have : l ++ [a, b] = (l ++ [a]) ++ [b] := by simp
  rw [this]
  exact List.getLast?_concat _

theorem genEvents_shape (ctx : Ctx) (types : List Ty) :
    ∀ ev ∈ genEvents env ctx types, ∃ c t, ev = Event.generate c t := by
  induction types generalizing ctx with
  | nil => simp [genEvents]
  | cons typ rest ih =>
    intro ev hev
    simp only [genEvents, List.mem_cons] at hev
    rcases hev with rfl | hev
    · exact ⟨ctx, typ, rfl⟩
    · exact ih _ ev hev

theorem genEvents_filter_isGenerate (ctx : Ctx) (types : List Ty) :
    (genEvents env ctx types).filter Event.isGenerate = genEvents env ctx types := by
  rw [List.filter_eq_self]
  exact genEvents_isGenerate env ctx types

theorem genEvents_filter_isNewGenContext (ctx : Ctx) (types : List Ty) :
    (genEvents env ctx types).filter Event.isNewGenContext = [] := by
  rw [List.filter_eq_nil_iff]
  intro ev hev
  obtain ⟨c, t, rfl⟩ := genEvents_shape env ctx types ev hev
  simp [Event.isNewGenContext]

theorem genEvents_filter_isHeader (ctx : Ctx) (types : List Ty) :
    (genEvents env ctx types).filter Event.isHeader = [] := by
  rw [List.filter_eq_nil_iff]
  intro ev hev
  obtain ⟨c, t, rfl⟩ := genEvents_shape env ctx types ev hev
  simp [Event.isHeader]

theorem genEvents_filter_isFormatSource (ctx : Ctx) (types : List Ty) :
    (genEvents env ctx types).filter Event.isFormatSource = [] := by
  rw [List.filter_eq_nil_iff]
  intro ev hev
  obtain ⟨c, t, rfl⟩ := genEvents_shape env ctx types ev hev
  simp [Event.isFormatSource]

theorem GenRun.ctxAfter_eq {ctx ctx' : Ctx} {types : List Ty} {cs : List Bytes}
    (h : GenRun env ctx types cs ctx') : ctxAfter env ctx types = ctx' := by
  induction h with
  | done ctx => rfl
  | step hgen _ ih =>
    simp only [ctxAfter, List.foldl_cons, hgen] at ih ⊢
    exact ih

/-- A run without error went through the whole pipeline. -/
theorem process_ok_inv (h : (process env cfg).err = none) :
    ∃ pkg types cs ctx', env.load (loadConfig cfg) = ([pkg], none) ∧ pkg.Errors = [] ∧
      env.parsePackage pkg.Types none = (types, none) ∧
      GenRun env (env.newGenContext pkg.Types) types cs ctx' := by
  rcases process_cases env cfg with ⟨ps, e, hl⟩ | hl | ⟨p, q, ps, hl⟩ | ⟨pkg, hl, he⟩ |
    ⟨pkg, types, e, hl, he, hp⟩ | ⟨pkg, front, t, rest, cs, ctx', ctx'', r, e, hl, he, hp, hr, hg⟩ |
    ⟨pkg, types, cs, ctx', hl, he, hp, hr⟩
  · rw [process_load_err env cfg hl] at h; simp at h
  · rw [process_no_package env cfg hl] at h; simp at h
  · rw [process_many_packages env cfg hl] at h; simp at h
  · rw [process_package_errors env cfg hl he] at h; simp at h
  · rw [process_parse_err env cfg hl he hp] at h; simp at h
  · rw [process_generate_err env cfg hl he hp hr hg] at h; simp at h
  · exact ⟨pkg, types, cs, ctx', hl, he, hp, hr⟩

/-- C4: `process` fails with no bytes, and without calling `parsePackage`,
`newGenContext` or `generate`, when the loader fails, finds no package
(`no Go package found in <Dir>`), finds more than one package (`at most one
package can be processed at the same time`) or finds one package with errors
(`package <PkgPath> has errors`); and a run that reaches one of those calls
loaded exactly one package without errors. -/
theorem process_resolution_guard :
    (∀ ps e, env.load (loadConfig cfg) = (ps, some e) →
      (process env cfg).code = [] ∧ (process env cfg).err = some (GoError.collab e) ∧
      ∀ ev ∈ (process env cfg).trace, ev.isParsePackage = false ∧ ev.isGenerate = false) ∧
    (env.load (loadConfig cfg) = ([], none) →
      (process env cfg).code = [] ∧
      (process env cfg).err = some (GoError.errorf ("no Go package found in " ++ cfg.Dir)) ∧
      ∀ ev ∈ (process env cfg).trace, ev.isParsePackage = false ∧ ev.isGenerate = false) ∧
    (∀ ps, env.load (loadConfig cfg) = (ps, none) → 1 < ps.length →
      (process env cfg).code = [] ∧
      (process env cfg).err =
        some (GoError.errorf "at most one package can be processed at the same time") ∧
      ∀ ev ∈ (process env cfg).trace, ev.isParsePackage = false ∧ ev.isGenerate = false) ∧
    (∀ pkg, env.load (loadConfig cfg) = ([pkg], none) → pkg.Errors ≠ [] →
      (process env cfg).code = [] ∧
      (process env cfg).err =
        some (GoError.errorf ("package " ++ pkg.PkgPath ++ " has errors")) ∧
      ∀ ev ∈ (process env cfg).trace, ev.isParsePackage = false ∧ ev.isGenerate = false) ∧
    ((∃ ev ∈ (process env cfg).trace,
        ev.isParsePackage = true ∨ ev.isNewGenContext = true ∨ ev.isGenerate = true) →
      ∃ pkg, env.load (loadConfig cfg) = ([pkg], none) ∧ pkg.Errors = []) := by
  refine ⟨?_, ?_, ?_, ?_, ?_⟩
  · intro ps e hl
    rw [process_load_err env cfg hl]
    simp [Event.isParsePackage, Event.isGenerate]
  · intro hl
    rw [process_no_package env cfg hl]
    simp [Event.isParsePackage, Event.isGenerate]
  · intro ps hl hlen
    rcases ps with _ | ⟨p, _ | ⟨q, ps⟩⟩
    · simp at hlen
    · simp at hlen
    · rw [process_many_packages env cfg hl]
      simp [Event.isParsePackage, Event.isGenerate]
  · intro pkg hl he
    rw [process_package_errors env cfg hl he]
    simp [Event.isParsePackage, Event.isGenerate]
  · rintro ⟨ev, hev, hkind⟩
    rcases process_cases env cfg with ⟨ps, e, hl⟩ | hl | ⟨p, q, ps, hl⟩ | ⟨pkg, hl, he⟩ |
      ⟨pkg, types, e, hl, he, hp⟩ |
      ⟨pkg, front, t, rest, cs, ctx', ctx'', r, e, hl, he, hp, hr, hg⟩ |
      ⟨pkg, types, cs, ctx', hl, he, hp, hr⟩
    · rw [process_load_err env cfg hl] at hev
      simp only [List.mem_singleton] at hev
      subst hev
      simp [Event.isParsePackage, Event.isGenerate, Event.isNewGenContext] at hkind
    · rw [process_no_package env cfg hl] at hev
      simp only [List.mem_singleton] at hev
      subst hev
      simp [Event.isParsePackage, Event.isGenerate, Event.isNewGenContext] at hkind
    · rw [process_many_packages env cfg hl] at hev
      simp only [List.mem_singleton] at hev
      subst hev
      simp [Event.isParsePackage, Event.isGenerate, Event.isNewGenContext] at hkind
    · rw [process_package_errors env cfg hl he] at hev
      simp only [List.mem_cons, List.mem_singleton, List.not_mem_nil, or_false] at hev
      rcases hev with rfl | rfl <;>
        simp [Event.isParsePackage, Event.isGenerate, Event.isNewGenContext] at hkind
    · exact ⟨pkg, hl, he⟩
    · exact ⟨pkg, hl, he⟩
    · exact ⟨pkg, hl, he⟩

/-- Witness of C4: the four failing loads and a load that gets through. -/
theorem process_resolution_guard_witness :
    (process (demoEnv ([], some "go list failed") formatKeep) ⟨".", ""⟩).err =
      some (GoError.collab "go list failed") ∧
    (process (demoEnv ([], none) formatKeep) ⟨"./x", ""⟩).err =
      some (GoError.errorf "no Go package found in ./x") ∧
    (process (demoEnv ([demoPkg ["Foo"], demoPkg ["Bar"]], none) formatKeep) ⟨".", ""⟩).err =
      some (GoError.errorf "at most one package can be processed at the same time") ∧
    (process (demoEnv ([⟨"example.com/demo", ["undefined: x"], ["Foo"]⟩], none) formatKeep)
      ⟨".", ""⟩).err = some (GoError.errorf "package example.com/demo has errors") ∧
    (∃ pkg, (demoEnv ([demoPkg ["Foo"]], none) formatKeep).load (loadConfig ⟨".", ""⟩) =
      ([pkg], none) ∧ pkg.Errors = []) :=
  ⟨((process_resolution_guard (demoEnv ([], some "go list failed") formatKeep) ⟨".", ""⟩).1
      [] "go list failed" rfl).2.1,
   ((process_resolution_guard (demoEnv ([], none) formatKeep) ⟨"./x", ""⟩).2.1 rfl).2.1,
   ((process_resolution_guard (demoEnv ([demoPkg ["Foo"], demoPkg ["Bar"]], none) formatKeep)
      ⟨".", ""⟩).2.2.1 _ rfl (by decide)).2.1,
   ((process_resolution_guard
      (demoEnv ([⟨"example.com/demo", ["undefined: x"], ["Foo"]⟩], none) formatKeep)
      ⟨".", ""⟩).2.2.2.1 _ rfl (by decide)).2.1,
   (process_resolution_guard (demoEnv ([demoPkg ["Foo"]], none) formatKeep) ⟨".", ""⟩).2.2.2.2
      ⟨Event.parsePackage ["Foo"] none, by decide, Or.inl rfl⟩⟩

/-- C10: the result of `process`, and every call it makes, is the same for two
configurations with the same `Dir`, whatever their `Type`; and `parsePackage`
is only ever called with `nil` for the type name. -/
theorem process_ignores_type (cfg₁ cfg₂ : Config) (hdir : cfg₁.Dir = cfg₂.Dir) :
    process env cfg₁ = process env cfg₂ ∧
    ∀ pkg name, Event.parsePackage pkg name ∈ (process env cfg₁).trace → name = none := by
  constructor
  · obtain ⟨d₁, t₁⟩ := cfg₁
    obtain ⟨d₂, t₂⟩ := cfg₂
    simp only at hdir
    subst hdir
    rfl
  · intro pkg name hmem
    rcases process_cases env cfg₁ with ⟨ps, e, hl⟩ | hl | ⟨p, q, ps, hl⟩ | ⟨pkg', hl, he⟩ |
      ⟨pkg', types, e, hl, he, hp⟩ |
      ⟨pkg', front, t, rest, cs, ctx', ctx'', r, e, hl, he, hp, hr, hg⟩ |
      ⟨pkg', types, cs, ctx', hl, he, hp, hr⟩
    · rw [process_load_err env cfg₁ hl] at hmem; simp at hmem
    · rw [process_no_package env cfg₁ hl] at hmem; simp at hmem
    · rw [process_many_packages env cfg₁ hl] at hmem; simp at hmem
    · rw [process_package_errors env cfg₁ hl he] at hmem; simp at hmem
    · rw [process_parse_err env cfg₁ hl he hp] at hmem
      simp at hmem
      exact hmem.2
    · rw [process_generate_err env cfg₁ hl he hp hr hg] at hmem
      simp only [List.mem_append, List.mem_cons, List.mem_singleton, List.not_mem_nil,
        or_false] at hmem
      rcases hmem with ((h | h | h | h) | h) | h
      · cases h
      · cases h
      · cases h; rfl
      · cases h
      · obtain ⟨c, t', h'⟩ := genEvents_shape env _ _ _ h
        cases h'
      · cases h
    · rw [process_success env cfg₁ hl he hp hr] at hmem
      simp only [List.mem_append, List.mem_cons, List.mem_singleton, List.not_mem_nil,
        or_false] at hmem
      rcases hmem with ((h | h | h | h) | h) | h | h
      · cases h
      · cases h
      · cases h; rfl
      · cases h
      · obtain ⟨c, t', h'⟩ := genEvents_shape env _ _ _ h
        cases h'
      · cases h
      · cases h

/-- Witness of C10: a run asking for the absent type `Bar` and a run asking
for no type give the same result. -/
theorem process_ignores_type_witness :
    process (demoEnv ([demoPkg ["Foo"]], none) formatKeep) ⟨".", "Bar"⟩ =
      process (demoEnv ([demoPkg ["Foo"]], none) formatKeep) ⟨".", ""⟩ :=
  (process_ignores_type (demoEnv ([demoPkg ["Foo"]], none) formatKeep) ⟨".", "Bar"⟩ ⟨".", ""⟩
    rfl).1

theorem demoEnv_load (pkg : Package (List String)) (fmt : Bytes → Bytes × Option String)
    (cfg : Config) : (demoEnv ([pkg], none) fmt).load (loadConfig cfg) = ([pkg], none) := rfl

theorem demoEnv_genRun_one (loaded : List (Package (List String)) × Option String)
    (fmt : Bytes → Bytes × Option String) :
    GenRun (demoEnv loaded fmt) [] ["Foo"] [bytesOf "func (obj *Foo) SizeSSZ() int"] ["Foo"] :=
  GenRun.step rfl (GenRun.done _)

theorem demoEnv_genRun_two (loaded : List (Package (List String)) × Option String)
    (fmt : Bytes → Bytes × Option String) :
    GenRun (demoEnv loaded fmt) [] ["Foo", "Bar"]
      [bytesOf "func (obj *Foo) SizeSSZ() int", bytesOf "func (obj *Bar) SizeSSZ() int"]
      ["Foo", "Bar"] :=
  @GenRun.step _ _ _ _ _ [] ["Foo"] _ _ _ _ _ rfl
    (@GenRun.step _ _ _ _ _ ["Foo"] ["Foo", "Bar"] _ _ _ _ _ rfl (GenRun.done _))

/-- C3: the bytes of a successful run are exactly the marker comment and the
two build-constraint lines, followed by what the formatter returned for the
text it was handed, and nothing else; and the tag negated in both constraint
lines is the tag that the run passed to the loader in its `-tags` build flag
(`nosszgen`). -/
theorem process_output_build_comments (h : (process env cfg).err = none) :
    (∃ raw, (process env cfg).trace.getLast? = some (Event.formatSource raw) ∧
      (process env cfg).code =
        bytesOf ("// Code generated by sszgen. DO NOT EDIT.\n\n" ++
          "//go:build !nosszgen\n// +build !nosszgen\n\n") ++ (env.formatSource raw).1) ∧
    (∃ pcfg tag, (process env cfg).trace.head? = some (Event.load pcfg) ∧
      pcfg.BuildFlags = ["-tags", tag] ∧ tag = "nosszgen" ∧
      buildComments =
        bytesOf ("// Code generated by sszgen. DO NOT EDIT.\n\n" ++
          "//go:build !" ++ tag ++ "\n// +build !" ++ tag ++ "\n\n")) := by
  obtain ⟨pkg, types, cs, ctx', hl, he, hp, hr⟩ := process_ok_inv env cfg h
  rw [process_success env cfg hl he hp hr]
  refine ⟨⟨env.header ctx' ++ bytesJoin cs (bytesOf "\n\n"), ?_, ?_⟩,
    ⟨loadConfig cfg, "nosszgen", ?_, rfl, rfl, ?_⟩⟩
  · exact getLast?_append_two _ _ _
  · have hb : buildComments = bytesOf ("// Code generated by sszgen. DO NOT EDIT.\n\n" ++
        "//go:build !nosszgen\n// +build !nosszgen\n\n") := by decide
    simp only [hb]
  · simp
  · decide

/-- Witness of C3: a run over a package with the types `Foo` and `Bar`. -/
theorem process_output_build_comments_witness :
    ∃ raw, (process (demoEnv ([demoPkg ["Foo", "Bar"]], none) formatKeep) ⟨".", ""⟩).trace.getLast?
        = some (Event.formatSource raw) ∧
      (process (demoEnv ([demoPkg ["Foo", "Bar"]], none) formatKeep) ⟨".", ""⟩).code =
        bytesOf ("// Code generated by sszgen. DO NOT EDIT.\n\n" ++
          "//go:build !nosszgen\n// +build !nosszgen\n\n") ++ (formatKeep raw).1 :=
  (process_output_build_comments (demoEnv ([demoPkg ["Foo", "Bar"]], none) formatKeep) ⟨".", ""⟩
    (by decide)).1

/-- C5: when `generate` succeeds on the selected types `t1..tn` with the chunks
`c1..cn`, the formatter is called once, on the rendered header followed by
`c1, "\n\n", c2, ..., "\n\n", cn` (the separator is the two bytes 10, 10):
one chunk per selected type, in the order of selection; for no type the text is
the header alone. -/
theorem process_raw_text {pkg : Package T} {types : List Ty} {cs : List Bytes} {ctx' : Ctx}
    (hl : env.load (loadConfig cfg) = ([pkg], none)) (he : pkg.Errors = [])
    (hp : env.parsePackage pkg.Types none = (types, none))
    (hr : GenRun env (env.newGenContext pkg.Types) types cs ctx') :
    (process env cfg).trace.filter Event.isFormatSource =
      [Event.formatSource (env.header ctx' ++ List.intercalate [10, 10] cs)] ∧
    cs.length = types.length ∧
    (types = [] → (process env cfg).trace.filter Event.isFormatSource =
      [Event.formatSource (env.header ctx')]) := by
  have hsep : bytesOf "\n\n" = [10, 10] := by decide
  have key : (process env cfg).trace.filter Event.isFormatSource =
      [Event.formatSource (env.header ctx' ++ List.intercalate [10, 10] cs)] := by
    rw [process_success env cfg hl he hp hr]
    simp only [List.filter_append, genEvents_filter_isFormatSource, hsep,
      bytesJoin_eq_intercalate]
    simp [List.filter, Event.isFormatSource]
  refine ⟨key, GenRun.length_eq env hr, ?_⟩
  intro hnil
  subst hnil
  cases hr
  simpa [List.intercalate] using key

/-- Witness of C5: two types, two chunks, one blank line between them. -/
theorem process_raw_text_witness :
    (process (demoEnv ([demoPkg ["Foo", "Bar"]], none) formatKeep) ⟨".", ""⟩).trace.filter
        Event.isFormatSource =
      [Event.formatSource (demoHeader ["Foo", "Bar"] ++ List.intercalate [10, 10]
        [bytesOf "func (obj *Foo) SizeSSZ() int", bytesOf "func (obj *Bar) SizeSSZ() int"])] :=
  (process_raw_text (demoEnv ([demoPkg ["Foo", "Bar"]], none) formatKeep) ⟨".", ""⟩
    (demoEnv_load _ _ _) rfl rfl (demoEnv_genRun_two _ _)).1

/-- C6: an error of `parsePackage`, or of `generate` on the first type on which
it fails, is returned as it is, with no bytes; after a failing `generate` call
no further `generate` call is made, and each type before it was handed to
`generate` once; and a run that returns no error met no error in any
`parsePackage` or `generate` call. -/
theorem process_error_propagation :
    (∀ pkg types e, env.load (loadConfig cfg) = ([pkg], none) → pkg.Errors = [] →
      env.parsePackage pkg.Types none = (types, some e) →
      (process env cfg).code = [] ∧ (process env cfg).err = some (GoError.collab e) ∧
      (process env cfg).trace.filter Event.isGenerate = []) ∧
    (∀ pkg front t rest cs ctx' ctx'' r e, env.load (loadConfig cfg) = ([pkg], none) →
      pkg.Errors = [] → env.parsePackage pkg.Types none = (front ++ t :: rest, none) →
      GenRun env (env.newGenContext pkg.Types) front cs ctx' →
      env.generate ctx' t = (ctx'', r, some e) →
      (process env cfg).code = [] ∧ (process env cfg).err = some (GoError.collab e) ∧
      (process env cfg).trace.filter Event.isGenerate =
        genEvents env (env.newGenContext pkg.Types) front ++ [Event.generate ctx' t] ∧
      ((process env cfg).trace.filter Event.isGenerate).length = front.length + 1 ∧
      (process env cfg).trace.getLast? = some (Event.generate ctx' t)) ∧
    ((process env cfg).err = none →
      (∀ p name, Event.parsePackage p name ∈ (process env cfg).trace →
        (env.parsePackage p name).2 = none) ∧
      (∀ c t, Event.generate c t ∈ (process env cfg).trace → (env.generate c t).2.2 = none)) := by
  refine ⟨?_, ?_, ?_⟩
  · intro pkg types e hl he hp
    rw [process_parse_err env cfg hl he hp]
    simp [List.filter, Event.isGenerate]
  · intro pkg front t rest cs ctx' ctx'' r e hl he hp hr hg
    rw [process_generate_err env cfg hl he hp hr hg]
    have hf : ([Event.load (loadConfig cfg), Event.printErrors [pkg],
          Event.parsePackage pkg.Types none, Event.newGenContext pkg.Types] ++
        genEvents env (env.newGenContext pkg.Types) front ++
        [Event.generate ctx' t]).filter Event.isGenerate =
        genEvents env (env.newGenContext pkg.Types) front ++ [Event.generate ctx' t] := by
      simp only [List.filter_append, genEvents_filter_isGenerate]
      simp [List.filter, Event.isGenerate]
    refine ⟨rfl, rfl, hf, ?_, ?_⟩
    · simp only [hf]
      simp [genEvents_length]
    · exact List.getLast?_concat _
  · intro hok
    obtain ⟨pkg, types, cs, ctx', hl, he, hp, hr⟩ := process_ok_inv env cfg hok
    rw [process_success env cfg hl he hp hr]
    constructor
    · intro p name hmem
      simp only [List.mem_append, List.mem_cons, List.mem_singleton, List.not_mem_nil,
        or_false] at hmem
      rcases hmem with ((h | h | h | h) | h) | h | h
      · cases h
      · cases h
      · cases h; simp [hp]
      · cases h
      · obtain ⟨c, t', h'⟩ := genEvents_shape env _ _ _ h
        cases h'
      · cases h
      · cases h
    · intro c t hmem
      simp only [List.mem_append, List.mem_cons, List.mem_singleton, List.not_mem_nil,
        or_false] at hmem
      have hgen : ∀ (c₀ : Ctx) (l : List Ty) (cs₀ : List Bytes) (c₁ : Ctx),
          GenRun env c₀ l cs₀ c₁ → Event.generate c t ∈ genEvents env c₀ l →
          (env.generate c t).2.2 = none := by
        intro c₀ l cs₀ c₁ hrun
        induction hrun with
        | done _ => simp [genEvents]
        | step hgen' _ ih =>
          intro hm
          simp only [genEvents, List.mem_cons, hgen'] at hm
          rcases hm with hm | hm
          · cases hm; simp [hgen']
          · exact ih hm
      rcases hmem with ((h | h | h | h) | h) | h | h
      · cases h
      · cases h
      · cases h
      · cases h
      · exact hgen _ _ _ _ hr h
      · cases h
      · cases h

/-- Witness of C6: a failing selection, and a package whose second type
cannot be generated. -/
theorem process_error_propagation_witness :
    (process (demoEnv ([demoPkg ["Foo", "Bad", "Baz"]], none) formatKeep) ⟨".", ""⟩).err =
      some (GoError.collab "unsupported type Bad") ∧
    ((process (demoEnv ([demoPkg ["Foo", "Bad", "Baz"]], none) formatKeep)
      ⟨".", ""⟩).trace.filter Event.isGenerate).length = 2 :=
  have h := (process_error_propagation (demoEnv ([demoPkg ["Foo", "Bad", "Baz"]], none) formatKeep)
    ⟨".", ""⟩).2.1 (demoPkg ["Foo", "Bad", "Baz"]) ["Foo"] "Bad" ["Baz"]
    [bytesOf "func (obj *Foo) SizeSSZ() int"] ["Foo"] ["Foo"] [] "unsupported type Bad"
    rfl rfl rfl (demoEnv_genRun_one _ _) rfl
  ⟨h.2.1, h.2.2.2.1⟩

theorem GenRun.transfer {env₁ : Env T Ty Ctx ε} (env₂ : Env T Ty Ctx ε) {ctx ctx' : Ctx} {types : List Ty}
    {cs : List Bytes} (h : GenRun env₁ ctx types cs ctx')
    (hag : ∀ ev ∈ genEvents env₁ ctx types, Agree env₁ env₂ ev) :
    GenRun env₂ ctx types cs ctx' ∧ genEvents env₂ ctx types = genEvents env₁ ctx types := by
  induction h with
  | done ctx => exact ⟨GenRun.done ctx, rfl⟩
  | @step ctx ctx₁ ctx₂ typ rest ret cs hgen _ ih =>
    have h1 : env₁.generate ctx typ = env₂.generate ctx typ :=
      hag (Event.generate ctx typ) (by simp [genEvents])
    have hgen₂ : env₂.generate ctx typ = (ctx₁, ret, none) := by rw [← h1]; exact hgen
    have hrest : ∀ ev ∈ genEvents env₁ ctx₁ rest, Agree env₁ env₂ ev := by
      intro ev hev
      apply hag
      simp only [genEvents, hgen, List.mem_cons]
      exact Or.inr hev
    obtain ⟨ih1, ih2⟩ := ih hrest
    refine ⟨GenRun.step hgen₂ ih1, ?_⟩
    simp only [genEvents, hgen, hgen₂, ih2]

/-- C8: `process` is deterministic.  If a second set of collaborators answers
every call that the first run makes as the first set did, the second run
returns the same bytes or the same error, and makes the same calls. -/
theorem process_deterministic (env₁ env₂ : Env T Ty Ctx ε) (cfg : Config)
    (hag : ∀ ev ∈ (process env₁ cfg).trace, Agree env₁ env₂ ev) :
    process env₂ cfg = process env₁ cfg := by
  have hload : env₁.load (loadConfig cfg) = env₂.load (loadConfig cfg) := by
    apply hag (Event.load (loadConfig cfg))
    rcases process_cases env₁ cfg with ⟨ps, e, hl⟩ | hl | ⟨p, q, ps, hl⟩ | ⟨pkg, hl, he⟩ |
      ⟨pkg, types, e, hl, he, hp⟩ |
      ⟨pkg, front, t, rest, cs, ctx', ctx'', r, e, hl, he, hp, hr, hg⟩ |
      ⟨pkg, types, cs, ctx', hl, he, hp, hr⟩
    · rw [process_load_err env₁ cfg hl]; simp
    · rw [process_no_package env₁ cfg hl]; simp
    · rw [process_many_packages env₁ cfg hl]; simp
    · rw [process_package_errors env₁ cfg hl he]; simp
    · rw [process_parse_err env₁ cfg hl he hp]; simp
    · rw [process_generate_err env₁ cfg hl he hp hr hg]; simp
    · rw [process_success env₁ cfg hl he hp hr]; simp
  rcases process_cases env₁ cfg with ⟨ps, e, hl⟩ | hl | ⟨p, q, ps, hl⟩ | ⟨pkg, hl, he⟩ |
    ⟨pkg, types, e, hl, he, hp⟩ |
    ⟨pkg, front, t, rest, cs, ctx', ctx'', r, e, hl, he, hp, hr, hg⟩ |
    ⟨pkg, types, cs, ctx', hl, he, hp, hr⟩
  · rw [process_load_err env₁ cfg hl, process_load_err env₂ cfg (hload ▸ hl)]
  · rw [process_no_package env₁ cfg hl, process_no_package env₂ cfg (hload ▸ hl)]
  · rw [process_many_packages env₁ cfg hl, process_many_packages env₂ cfg (hload ▸ hl)]
  · rw [process_package_errors env₁ cfg hl he, process_package_errors env₂ cfg (hload ▸ hl) he]
  · rw [process_parse_err env₁ cfg hl he hp] at hag ⊢
    have hp' : env₁.parsePackage pkg.Types none = env₂.parsePackage pkg.Types none :=
      hag (Event.parsePackage pkg.Types none) (by simp)
    rw [process_parse_err env₂ cfg (hload ▸ hl) he (hp' ▸ hp)]
  · rw [process_generate_err env₁ cfg hl he hp hr hg] at hag ⊢
    have hp' : env₁.parsePackage pkg.Types none = env₂.parsePackage pkg.Types none :=
      hag (Event.parsePackage pkg.Types none) (by simp)
    have hn : env₁.newGenContext pkg.Types = env₂.newGenContext pkg.Types :=
      hag (Event.newGenContext pkg.Types) (by simp)
    have hg' : env₁.generate ctx' t = env₂.generate ctx' t :=
      hag (Event.generate ctx' t) (by simp)
    obtain ⟨hr₂, hev⟩ := GenRun.transfer env₂ hr (fun ev hev => hag ev (by
      simp only [List.mem_append]
      exact Or.inl (Or.inr hev)))
    rw [hn] at hr₂ hev
    rw [process_generate_err env₂ cfg (hload ▸ hl) he (hp' ▸ hp) hr₂ (hg' ▸ hg), hev, hn]
  · rw [process_success env₁ cfg hl he hp hr] at hag ⊢
    have hp' : env₁.parsePackage pkg.Types none = env₂.parsePackage pkg.Types none :=
      hag (Event.parsePackage pkg.Types none) (by simp)
    have hn : env₁.newGenContext pkg.Types = env₂.newGenContext pkg.Types :=
      hag (Event.newGenContext pkg.Types) (by simp)
    have hh : env₁.header ctx' = env₂.header ctx' := hag (Event.header ctx') (by simp)
    have hf : env₁.formatSource (env₁.header ctx' ++ bytesJoin cs (bytesOf "\n\n")) =
        env₂.formatSource (env₁.header ctx' ++ bytesJoin cs (bytesOf "\n\n")) :=
      hag (Event.formatSource _) (by simp)
    obtain ⟨hr₂, hev⟩ := GenRun.transfer env₂ hr (fun ev hev => hag ev (by
      simp only [List.mem_append]
      exact Or.inl (Or.inr hev)))
    rw [hn] at hr₂ hev
    rw [process_success env₂ cfg (hload ▸ hl) he (hp' ▸ hp) hr₂, hev, ← hh, ← hf, hn]

set_option maxRecDepth 100000 in
/-- Witness of C8: two formatters that differ on the empty text only, which
the run never formats. -/
theorem process_deterministic_witness :
    process (demoEnv ([demoPkg ["Foo", "Bar"]], none) formatNonEmpty) ⟨".", ""⟩ =
      process (demoEnv ([demoPkg ["Foo", "Bar"]], none) formatKeep) ⟨".", ""⟩ :=
  process_deterministic (demoEnv ([demoPkg ["Foo", "Bar"]], none) formatKeep)
    (demoEnv ([demoPkg ["Foo", "Bar"]], none) formatNonEmpty) ⟨".", ""⟩ (by decide)

/-- C9: in a run without error one generation context is created, after
`parsePackage` and before any `generate` call; the `generate` calls are made
for the selected types in order, the first on the new context and each later
one on the context as the call before left it; the header is rendered once,
after the last `generate` call, from the context as that call left it; and the
rendered header starts the text handed to the formatter. -/
theorem process_context_lifecycle (h : (process env cfg).err = none) :
    ∃ pkg types body, env.parsePackage pkg.Types none = (types, none) ∧
      (process env cfg).trace =
        [Event.load (loadConfig cfg), Event.printErrors [pkg],
          Event.parsePackage pkg.Types none, Event.newGenContext pkg.Types] ++
        genEvents env (env.newGenContext pkg.Types) types ++
        [Event.header (ctxAfter env (env.newGenContext pkg.Types) types),
          Event.formatSource
            (env.header (ctxAfter env (env.newGenContext pkg.Types) types) ++ body)] ∧
      (process env cfg).code = buildComments ++
        (env.formatSource
          (env.header (ctxAfter env (env.newGenContext pkg.Types) types) ++ body)).1 ∧
      (process env cfg).trace.filter Event.isNewGenContext =
        [Event.newGenContext pkg.Types] ∧
      (process env cfg).trace.filter Event.isHeader =
        [Event.header (ctxAfter env (env.newGenContext pkg.Types) types)] ∧
      ((process env cfg).trace.filter Event.isGenerate).length = types.length := by
  obtain ⟨pkg, types, cs, ctx', hl, he, hp, hr⟩ := process_ok_inv env cfg h
  refine ⟨pkg, types, bytesJoin cs (bytesOf "\n\n"), hp, ?_⟩
  rw [process_success env cfg hl he hp hr, GenRun.ctxAfter_eq env hr]
  refine ⟨rfl, rfl, ?_, ?_, ?_⟩
  · simp only [List.filter_append, genEvents_filter_isNewGenContext]
    simp [List.filter, Event.isNewGenContext]
  · simp only [List.filter_append, genEvents_filter_isHeader]
    simp [List.filter, Event.isHeader]
  · simp only [List.filter_append, genEvents_filter_isGenerate]
    simp [List.filter, Event.isGenerate, genEvents_length]

set_option maxRecDepth 100000 in
/-- Witness of C9: the header of a run over `Foo` and `Bar` is rendered from
the context in which both are registered. -/
theorem process_context_lifecycle_witness :
    ∃ pkg types body,
      (demoEnv ([demoPkg ["Foo", "Bar"]], none) formatKeep).parsePackage pkg.Types none =
        (types, none) ∧
      (process (demoEnv ([demoPkg ["Foo", "Bar"]], none) formatKeep) ⟨".", ""⟩).trace =
        [Event.load (loadConfig ⟨".", ""⟩), Event.printErrors [pkg],
          Event.parsePackage pkg.Types none, Event.newGenContext pkg.Types] ++
        genEvents (demoEnv ([demoPkg ["Foo", "Bar"]], none) formatKeep) [] types ++
        [Event.header (ctxAfter (demoEnv ([demoPkg ["Foo", "Bar"]], none) formatKeep) [] types),
          Event.formatSource
            (demoHeader (ctxAfter (demoEnv ([demoPkg ["Foo", "Bar"]], none) formatKeep) [] types)
              ++ body)] := by
  obtain ⟨pkg, types, body, h1, h2, _⟩ :=
    process_context_lifecycle (demoEnv ([demoPkg ["Foo", "Bar"]], none) formatKeep) ⟨".", ""⟩
      (by decide)
  exact ⟨pkg, types, body, h1, h2⟩

/-- When the formatter returns the `nil` slice with its error, as
`go/format.Source` does, a run that got that far still returns no error, and
its bytes are the build comments alone. -/
theorem process_format_nil {pkg : Package T} {types : List Ty} {cs : List Bytes} {ctx' : Ctx}
    {e : ε} (hl : env.load (loadConfig cfg) = ([pkg], none)) (he : pkg.Errors = [])
    (hp : env.parsePackage pkg.Types none = (types, none))
    (hr : GenRun env (env.newGenContext pkg.Types) types cs ctx')
    (hfmt : env.formatSource (env.header ctx' ++ bytesJoin cs (bytesOf "\n\n")) = ([], some e)) :
    (process env cfg).err = none ∧ (process env cfg).code = buildComments := by
  rw [process_success env cfg hl he hp hr, hfmt]
  simp

set_option maxRecDepth 100000 in
/-- C1: a run over a package with the one type `Foo` whose formatter fails as
`go/format.Source` does (a `nil` slice and an error): `process` returns no
error, the text handed to the formatter is the header and the chunk of `Foo`,
and the bytes returned are the build comments alone; the unformatted text is
not in them. -/
theorem process_format_failure_drops_text :
    (process (demoEnv ([demoPkg ["Foo"]], none) formatFail) ⟨".", ""⟩).err = none ∧
    (process (demoEnv ([demoPkg ["Foo"]], none) formatFail) ⟨".", ""⟩).trace.getLast? =
      some (Event.formatSource
        (demoHeader ["Foo"] ++ bytesOf "func (obj *Foo) SizeSSZ() int")) ∧
    formatFail (demoHeader ["Foo"] ++ bytesOf "func (obj *Foo) SizeSSZ() int") =
      ([], some "expected declaration") ∧
    (process (demoEnv ([demoPkg ["Foo"]], none) formatFail) ⟨".", ""⟩).code = buildComments ∧
    ¬ List.IsInfix (demoHeader ["Foo"] ++ bytesOf "func (obj *Foo) SizeSSZ() int")
      (process (demoEnv ([demoPkg ["Foo"]], none) formatFail) ⟨".", ""⟩).code := by
  have hcode : (process (demoEnv ([demoPkg ["Foo"]], none) formatFail) ⟨".", ""⟩).code =
      buildComments := by decide
  refine ⟨by decide, by decide, rfl, hcode, ?_⟩
  rw [hcode]
  decide

set_option maxRecDepth 100000 in
/-- C2: a run with `-type Bar` over a package whose only type is `Foo`.  The
Type Selector of the specification rejects the name `Bar` with a not-found
error, but `process` never hands the name to `parsePackage`: it returns no
error and the code generated for `Foo`, which `main` writes to standard
output. -/
theorem process_absent_type_accepted :
    selectTypes ["Foo"] (some "Bar") = ([], some "type Bar not found") ∧
    (process (demoEnv ([demoPkg ["Foo"]], none) formatKeep) ⟨".", "Bar"⟩).err = none ∧
    (process (demoEnv ([demoPkg ["Foo"]], none) formatKeep) ⟨".", "Bar"⟩).code =
      buildComments ++ bytesOf "package demo // Foo\nfunc (obj *Foo) SizeSSZ() int" ∧
    main (demoEnv ([demoPkg ["Foo"]], none) formatKeep) demoWriteFile "." "-" "Bar" =
      [MainEffect.stdoutWrite
        (buildComments ++ bytesOf "package demo // Foo\nfunc (obj *Foo) SizeSSZ() int")] := by
  refine ⟨by decide, by decide, by decide, by decide⟩

end Claims

end Sszgen
